import Mathlib

/-!
Verification development for SpecterScope (src/specterscope.py), a
bounded-concurrency reconnaissance tool.  The Python source is shallowly
embedded: the three lookup wrappers and the per-target probe become pure
Lean functions over an oracle (`LookupEnv`) that supplies the outcome of
every external library call, and the semaphore-bounded scheduler of
`run_recon` becomes a small-step relation on an explicit state.
-/

/-- Embedding of Python `datetime.datetime` values as produced by
`datetime.datetime.utcnow()` (naive UTC timestamps, lines 22 and 70). -/
structure Datetime where
  year : Nat
  month : Nat
  day : Nat
  hour : Nat
  minute : Nat
  second : Nat
  microsecond : Nat
deriving DecidableEq, Repr

/-- Embedding of Python `datetime.date`. -/
structure DateD where
  year : Nat
  month : Nat
  day : Nat
deriving DecidableEq, Repr

/-- Zero-pad a natural number to a given width, as Python does when
formatting timestamp components. -/
def padNum (width : Nat) (n : Nat) : String :=
  let s := toString n
  String.mk (List.replicate (width - s.length) '0') ++ s

/-- `datetime.datetime.isoformat()`: the fractional part is printed only
when the microsecond component is nonzero. -/
def Datetime.isoformat (d : Datetime) : String :=
  padNum 4 d.year ++ "-" ++ padNum 2 d.month ++ "-" ++ padNum 2 d.day ++ "T" ++
    padNum 2 d.hour ++ ":" ++ padNum 2 d.minute ++ ":" ++ padNum 2 d.second ++
    (if d.microsecond = 0 then "" else "." ++ padNum 6 d.microsecond)

/-- `datetime.date.isoformat()`. -/
def DateD.isoformat (d : DateD) : String :=
  padNum 4 d.year ++ "-" ++ padNum 2 d.month ++ "-" ++ padNum 2 d.day

/-- Embedding of the Python values that can appear as fields of a WHOIS
response object (line 57 stringifies and truthiness-filters them). -/
inductive PyVal where
  | pynone
  | pystr (s : String)
  | pyint (n : Int)
  | pylist (elems : List PyVal)

mutual

/-- Python `repr` on the embedded values (used by `str` on containers). -/
def pyRepr : PyVal → String
  | .pynone => "None"
  | .pystr s => "'" ++ s ++ "'"
  | .pyint n => toString n
  | .pylist l => "[" ++ pyReprList l ++ "]"

/-- Comma-joined `repr`s of the elements of a Python list. -/
def pyReprList : List PyVal → String
  | [] => ""
  | [x] => pyRepr x
  | x :: y :: rest => pyRepr x ++ ", " ++ pyReprList (y :: rest)

end

/-- Python `str` on the embedded values: strings print bare, everything
else prints as its `repr`. -/
def pyStr : PyVal → String
  | .pystr s => s
  | v => pyRepr v

/-- Python truthiness of the embedded values, as tested by `if v` in the
dict comprehension on line 57. -/
def pyTruthy : PyVal → Bool
  | .pynone => false
  | .pystr s => !(s == "")
  | .pyint n => !(n == 0)
  | .pylist l => !l.isEmpty

/-- Argument type of `json_converter` (line 25): a datetime, a date, or
any other Python value. -/
inductive PyObj where
  | datetime (d : Datetime)
  | date (d : DateD)
  | other (v : PyVal)

/-- Embedding of `json_converter` (lines 25-30): datetimes and dates
render as their ISO-8601 `isoformat()` string, anything else is
stringified with `str`. -/
def json_converter : PyObj → String
  | .datetime d => d.isoformat
  | .date d => d.isoformat
  | .other v => pyStr v

/-- Oracle for every external library call the source makes.  Each field
returns `Except`: `.error` stands for the call raising an exception
(including timeouts), `.ok` for a normal return.
* `resolveA t` / `resolveMX t` — `dns.resolver.resolve(t, 'A')` and
  `dns.resolver.resolve(t, 'MX')`, already mapped to the record texts
  produced by the comprehensions on lines 44 and 49;
* `whoisItems t` — `whois.whois(t).items()` as an ordered key/value list;
* `httpGet url timeout` — `session.get(url, timeout=...)`, returning the
  response headers as an ordered key/value list;
* `now t` — the `datetime.datetime.utcnow()` completion stamp taken when
  target `t` finishes (line 70). -/
structure LookupEnv where
  resolveA : String → Except String (List String)
  resolveMX : String → Except String (List String)
  whoisItems : String → Except String (List (String × PyVal))
  httpGet : String → Nat → Except String (List (String × String))
  now : String → Datetime

/-- Embedding of the `ReconResult` dataclass (lines 16-22).  Python dicts
preserve insertion order, so the mappings are ordered key/value lists. -/
structure ReconResult where
  target : String
  dns_records : List (String × List String)
  whois_data : List (String × String)
  http_headers : List (String × String)
  timestamp : Datetime
deriving DecidableEq, Repr

/-- Embedding of `fetch_http_headers` (lines 33-38): perform the GET with
`timeout=5` supplied by the caller as part of the oracle call; any
exception (timeout, connection failure, transport error) yields `{}`. -/
def fetch_http_headers (env : LookupEnv) (url : String) (timeout : Nat) :
    List (String × String) :=
  match env.httpGet url timeout with
  | .ok headers => headers
  | .error _ => []

/-- Embedding of `dns_lookup` (lines 40-52): the `A` and `MX` categories
are attempted in two independent try/except blocks; a failure in either
one stores `[]` under that key only. -/
def dns_lookup (env : LookupEnv) (target : String) : List (String × List String) :=
  let aRecords :=
    match env.resolveA target with
    | .ok answers => answers
    | .error _ => []
  let mxRecords :=
    match env.resolveMX target with
    | .ok answers => answers
    | .error _ => []
  [("A", aRecords), ("MX", mxRecords)]

/-- Embedding of `whois_lookup` (lines 54-59): on success, stringify each
field and keep only truthy values; on any exception return `{}`. -/
def whois_lookup (env : LookupEnv) (target : String) : List (String × String) :=
  match env.whoisItems target with
  | .ok items =>
      (items.filter (fun kv => pyTruthy kv.2)).map (fun kv => (kv.1, pyStr kv.2))
  | .error _ => []

/-- Embedding of `recon_target` (lines 61-71): run the three lookups and
assemble one `ReconResult` stamped with the completion time.  The
function is total: no oracle outcome can make it fail. -/
def recon_target (env : LookupEnv) (target : String) : ReconResult :=
  { target := target
    dns_records := dns_lookup env target
    whois_data := whois_lookup env target
    http_headers := fetch_http_headers env ("http://" ++ target) 5
    timestamp := env.now target }

/-- State of one admitted target in the bounded scheduler of `run_recon`
(lines 74-88): `pending` before the semaphore is acquired, `running`
while `recon_target` executes inside the `async with sem` block, `done`
after the record has been appended to `results`. -/
inductive ProbeState where
  | pending
  | running
  | done
deriving DecidableEq, Repr

/-- State of one execution of `run_recon`: the per-target probe states
(indexed like the input target list) and the `results` list, which grows
in completion order (line 86). -/
structure SchedState where
  status : List ProbeState
  results : List ReconResult
deriving DecidableEq, Repr

/-- Number of probes currently in a given state. -/
def countState (c : ProbeState) : List ProbeState → Nat
  | [] => 0
  | s :: rest => (if s = c then 1 else 0) + countState c rest

/-- Initial state of `run_recon targets concurrency`: every target
pending, no results. -/
def initState (targets : List String) : SchedState :=
  { status := targets.map (fun _ => ProbeState.pending), results := [] }

/-- Small-step semantics of the scheduler in `run_recon` (lines 78-86).
`acquire` models `bound_recon` acquiring the semaphore: it requires a free
slot (fewer than `n` probes running).  `complete` models `recon_target`
returning inside the `async with sem` block: the record for that target
is appended to `results` and the slot is released.  `recon_target` has no
failure mode, so these are the only transitions. -/
inductive ReconStep (env : LookupEnv) (targets : List String) (n : Nat) :
    SchedState → SchedState → Prop where
  | acquire (s : SchedState) (i : Nat)
      (hp : s.status[i]? = some ProbeState.pending)
      (hn : countState ProbeState.running s.status < n) :
      ReconStep env targets n s
        { status := s.status.set i ProbeState.running, results := s.results }
  | complete (s : SchedState) (i : Nat) (t : String)
      (ht : targets[i]? = some t)
      (hr : s.status[i]? = some ProbeState.running) :
      ReconStep env targets n s
        { status := s.status.set i ProbeState.done
          results := s.results ++ [recon_target env t] }

/-- The states an execution of `run_recon` can reach. -/
def ReconReachable (env : LookupEnv) (targets : List String) (n : Nat)
    (s : SchedState) : Prop :=
  Relation.ReflTransGen (ReconStep env targets n) (initState targets) s

/-- A run of `run_recon` has finished exactly when every probe is done:
`asyncio.as_completed` (line 84) has then yielded every task. -/
def allDone (s : SchedState) : Prop :=
  ∀ x ∈ s.status, x = ProbeState.done

/-- The targets whose probes have already completed, read off positionally
from the scheduler state. -/
def doneTargets (targets : List String) (status : List ProbeState) : List String :=
  ((targets.zip status).filter (fun p => p.2 == ProbeState.done)).map Prod.fst

theorem countState_set (c a b : ProbeState) (l : List ProbeState) (i : Nat)
    (h : l[i]? = some b) :
    countState c (l.set i a) + (if b = c then 1 else 0) =
      countState c l + (if a = c then 1 else 0) := by
  induction l generalizing i with
  | nil => simp at h
  | cons hd tl ih =>
    cases i with
    | zero =>
      simp only [List.getElem?_cons_zero, Option.some.injEq] at h
      subst h
      simp only [List.set, countState]
      omega
    | succ j =>
      simp only [List.getElem?_cons_succ] at h
      have := ih j h
      simp only [List.set, countState]
      omega

theorem countState_init (c : ProbeState) (hc : c ≠ ProbeState.pending)
    (ts : List String) :
    countState c (ts.map (fun _ => ProbeState.pending)) = 0 := by
  induction ts with
  | nil => rfl
  | cons t ts ih =>
    simp only [List.map_cons, countState, ih]
    simp [Ne.symm hc]

theorem countState_replicate (c : ProbeState) (hc : c ≠ ProbeState.pending)
    (k : Nat) :
    countState c (List.replicate k ProbeState.pending) = 0 := by
  induction k with
  | zero => rfl
  | succ j ih =>
    simp only [List.replicate_succ, countState, ih]
    simp [Ne.symm hc]

/-- C2: throughout any execution of `run_recon`, at most `n` probes are in
the `running` state.  The acquire-before-start and release-on-completion
behaviour of the semaphore is the `acquire`/`complete` structure of
`ReconStep` (lines 78-86 of the source); this theorem proves the bound it
enforces over every reachable scheduler state. -/
theorem run_recon_concurrency_bound (env : LookupEnv) (targets : List String)
    (n : Nat) (s : SchedState) (hreach : ReconReachable env targets n s) :
    countState ProbeState.running s.status ≤ n := by
  simp only [ReconReachable] at hreach
  induction hreach with
  | refl =>
    simp [initState, countState_replicate ProbeState.running (by simp),
      countState_init ProbeState.running (by simp)]
  | tail hsteps hstep ih =>
    cases hstep with
    | acquire i hp hn =>
      have hc := countState_set ProbeState.running ProbeState.running
        ProbeState.pending _ i hp
      simp at hc
      dsimp only
      omega
    | complete i t ht hr =>
      have hc := countState_set ProbeState.running ProbeState.done
        ProbeState.running _ i hr
      simp at hc
      dsimp only
      omega

/-- An oracle in which every external call raises. -/
def envFail : LookupEnv :=
  { resolveA := fun _ => .error "fail"
    resolveMX := fun _ => .error "fail"
    whoisItems := fun _ => .error "fail"
    httpGet := fun _ _ => .error "fail"
    now := fun _ => ⟨1970, 1, 1, 0, 0, 0, 0⟩ }

/-- Witness for `run_recon_concurrency_bound`: a state of a concrete run
with two targets and concurrency 1, reached after admitting the first
target. -/
theorem run_recon_concurrency_bound_witness :
    countState ProbeState.running
      ({ status := [ProbeState.running, ProbeState.pending],
         results := [] } : SchedState).status ≤ 1 := by
  have h0 : ReconStep envFail ["a.test", "b.test"] 1
      (initState ["a.test", "b.test"])
      { status := [ProbeState.running, ProbeState.pending], results := [] } :=
    ReconStep.acquire (initState ["a.test", "b.test"]) 0 rfl (by decide)
  exact run_recon_concurrency_bound envFail ["a.test", "b.test"] 1 _
    (Relation.ReflTransGen.single h0)

theorem doneTargets_nil_left (status : List ProbeState) :
    doneTargets [] status = [] := by
  simp [doneTargets]

theorem doneTargets_cons (t : String) (ts : List String) (x : ProbeState)
    (rest : List ProbeState) :
    doneTargets (t :: ts) (x :: rest) =
      (if x = ProbeState.done then [t] else []) ++ doneTargets ts rest := by
  by_cases h : x = ProbeState.done
  · simp [doneTargets, h]
  · simp [doneTargets, h]

theorem doneTargets_replicate_pending (ts : List String) :
    doneTargets ts (List.replicate ts.length ProbeState.pending) = [] := by
  induction ts with
  | nil => rfl
  | cons t ts ih =>
    simp only [List.length_cons, List.replicate_succ, doneTargets_cons]
    simp [ih]

theorem doneTargets_init (ts : List String) :
    doneTargets ts (ts.map (fun _ => ProbeState.pending)) = [] := by
  rw [List.map_const']
  exact doneTargets_replicate_pending ts

theorem doneTargets_set_notDone (tg : List String) (status : List ProbeState)
    (i : Nat) (a b : ProbeState) (hb : status[i]? = some b)
    (hbd : b ≠ ProbeState.done) (had : a ≠ ProbeState.done) :
    doneTargets tg (status.set i a) = doneTargets tg status := by
  induction status generalizing tg i with
  | nil => simp at hb
  | cons hd tl ih =>
    cases tg with
    | nil => simp [doneTargets_nil_left]
    | cons t ts =>
      cases i with
      | zero =>
        simp only [List.getElem?_cons_zero, Option.some.injEq] at hb
        subst hb
        simp [List.set, doneTargets_cons, hbd, had]
      | succ j =>
        simp only [List.getElem?_cons_succ] at hb
        simp [List.set, doneTargets_cons, ih ts j hb]

theorem doneTargets_set_done_perm (tg : List String) (status : List ProbeState)
    (i : Nat) (t : String) (ht : tg[i]? = some t)
    (hr : status[i]? = some ProbeState.running) :
    (doneTargets tg (status.set i ProbeState.done)).Perm
      (t :: doneTargets tg status) := by
  induction status generalizing tg i with
  | nil => simp at hr
  | cons hd tl ih =>
    cases tg with
    | nil => simp at ht
    | cons t0 ts =>
      cases i with
      | zero =>
        simp only [List.getElem?_cons_zero, Option.some.injEq] at ht hr
        subst ht
        subst hr
        simp [List.set, doneTargets_cons]
      | succ j =>
        simp only [List.getElem?_cons_succ] at ht hr
        have hperm := ih ts j ht hr
        by_cases hd_done : hd = ProbeState.done
        · simp only [List.set, doneTargets_cons, hd_done, if_pos rfl,
            List.singleton_append]
          exact ((hperm.cons t0).trans (List.Perm.swap t t0 _))
        · simp only [List.set, doneTargets_cons, if_neg hd_done,
            List.nil_append]
          exact hperm

theorem doneTargets_allDone (tg : List String) (status : List ProbeState)
    (hlen : status.length = tg.length)
    (hall : ∀ x ∈ status, x = ProbeState.done) :
    doneTargets tg status = tg := by
  induction status generalizing tg with
  | nil =>
    cases tg with
    | nil => rfl
    | cons t ts => simp at hlen
  | cons hd tl ih =>
    cases tg with
    | nil => simp at hlen
    | cons t ts =>
      have hhd : hd = ProbeState.done := hall hd (List.mem_cons_self hd tl)
      have htl : ∀ x ∈ tl, x = ProbeState.done :=
        fun x hx => hall x (List.mem_cons_of_mem hd hx)
      simp only [List.length_cons, Nat.succ.injEq] at hlen
      simp [doneTargets_cons, hhd, ih ts hlen htl]

theorem reconReachable_status_length (env : LookupEnv) (targets : List String)
    (n : Nat) (s : SchedState) (hreach : ReconReachable env targets n s) :
    s.status.length = targets.length := by
  simp only [ReconReachable] at hreach
  induction hreach with
  | refl => simp [initState]
  | tail hsteps hstep ih =>
    cases hstep with
    | acquire i hp hn => simpa using ih
    | complete i t ht hr => simpa using ih

theorem reconReachable_results_perm (env : LookupEnv) (targets : List String)
    (n : Nat) (s : SchedState) (hreach : ReconReachable env targets n s) :
    (s.results.map (fun r => r.target)).Perm (doneTargets targets s.status) := by
  simp only [ReconReachable] at hreach
  induction hreach with
  | refl => simp [initState, doneTargets_init, doneTargets_replicate_pending]
  | @tail mid fin hsteps hstep ih =>
    cases hstep with
    | acquire i hp hn =>
      dsimp only
      rw [doneTargets_set_notDone targets _ i ProbeState.running
        ProbeState.pending hp (by simp) (by simp)]
      exact ih
    | complete i t ht hr =>
      dsimp only
      rw [List.map_append]
      have h1 : (List.map (fun r => r.target) mid.results ++
          List.map (fun r => r.target) [recon_target env t]).Perm
          (t :: List.map (fun r => r.target) mid.results) := by
        simp only [List.map_cons, List.map_nil, recon_target]
        exact List.perm_append_singleton t _
      exact (h1.trans (ih.cons t)).trans
        (doneTargets_set_done_perm targets _ i t ht hr).symm

/-- C1: for every input target list and concurrency bound `n ≥ 1`, any
completed run of `run_recon` ends with exactly one `ReconResult` per input
target occurrence: the multiset of result targets equals the multiset of
input targets (so duplicates in the input give duplicate records), and the
batch length equals the input length.  The oracle `env` is universally
quantified, so no combination of individual lookup failures can remove a
record. -/
theorem run_recon_batch_complete (env : LookupEnv) (targets : List String)
    (n : Nat) (_hn : 1 ≤ n) (s : SchedState)
    (hreach : ReconReachable env targets n s) (hdone : allDone s) :
    s.results.length = targets.length ∧
      (s.results.map (fun r => r.target)).Perm targets := by
  have hperm := reconReachable_results_perm env targets n s hreach
  have hlen := reconReachable_status_length env targets n s hreach
  rw [doneTargets_allDone targets s.status hlen hdone] at hperm
  refine ⟨?_, hperm⟩
  have := hperm.length_eq
  simpa using this

/-- Witness for `run_recon_batch_complete`: an explicit run with two
targets and concurrency 1 in the all-failing oracle, stepped to
completion. -/
theorem run_recon_batch_complete_witness :
    ({ status := [ProbeState.done, ProbeState.done],
       results := [recon_target envFail "a.test", recon_target envFail "b.test"] } :
        SchedState).results.length = (["a.test", "b.test"] : List String).length ∧
      (({ status := [ProbeState.done, ProbeState.done],
          results := [recon_target envFail "a.test",
            recon_target envFail "b.test"] } :
            SchedState).results.map (fun r => r.target)).Perm
        ["a.test", "b.test"] := by
  have s1 : ReconStep envFail ["a.test", "b.test"] 1
      (initState ["a.test", "b.test"])
      { status := [ProbeState.running, ProbeState.pending], results := [] } :=
    ReconStep.acquire (initState ["a.test", "b.test"]) 0 rfl (by decide)
  have s2 : ReconStep envFail ["a.test", "b.test"] 1
      { status := [ProbeState.running, ProbeState.pending], results := [] }
      { status := [ProbeState.done, ProbeState.pending],
        results := [recon_target envFail "a.test"] } :=
    ReconStep.complete _ 0 "a.test" rfl rfl
  have s3 : ReconStep envFail ["a.test", "b.test"] 1
      { status := [ProbeState.done, ProbeState.pending],
        results := [recon_target envFail "a.test"] }
      { status := [ProbeState.done, ProbeState.running],
        results := [recon_target envFail "a.test"] } :=
    ReconStep.acquire _ 1 rfl (by decide)
  have s4 : ReconStep envFail ["a.test", "b.test"] 1
      { status := [ProbeState.done, ProbeState.running],
        results := [recon_target envFail "a.test"] }
      { status := [ProbeState.done, ProbeState.done],
        results := [recon_target envFail "a.test",
          recon_target envFail "b.test"] } :=
    ReconStep.complete _ 1 "b.test" rfl rfl
  have hreach : ReconReachable envFail ["a.test", "b.test"] 1
      { status := [ProbeState.done, ProbeState.done],
        results := [recon_target envFail "a.test",
          recon_target envFail "b.test"] } :=
    ((((Relation.ReflTransGen.refl).tail s1).tail s2).tail s3).tail s4
  exact run_recon_batch_complete envFail ["a.test", "b.test"] 1 (by decide) _
    hreach (by simp [allDone])

/-- C4 (code evaluation at the failing input): `run_cli` passes the
command-line concurrency straight to `run_recon` with no validation, and
`run_recon` hands it to `asyncio.Semaphore`.  With concurrency 0 (an
integer < 1) and a nonempty target list, the admission gate can never be
acquired: the only reachable scheduler state is the initial one, so the
run never completes and never rejects the configuration. -/
theorem run_recon_zero_concurrency_stuck (env : LookupEnv) (s : SchedState)
    (hreach : ReconReachable env ["a.test"] 0 s) :
    s = initState ["a.test"] ∧ s.results = [] ∧ ¬ allDone s := by
  have hs : s = initState ["a.test"] := by
    simp only [ReconReachable] at hreach
    induction hreach with
    | refl => rfl
    | @tail mid fin hsteps hstep ih =>
      subst ih
      cases hstep with
      | acquire i hp hn => omega
      | complete i t ht hr =>
        simp only [initState, List.map_cons, List.map_nil] at hr
        cases i with
        | zero => simp at hr
        | succ j => simp at hr
  subst hs
  refine ⟨rfl, rfl, ?_⟩
  intro hall
  have := hall ProbeState.pending (by simp [initState])
  simp at this

/-- Witness for `run_recon_zero_concurrency_stuck`: the initial state of
the concurrency-0 run is reachable and already exhibits the deadlock. -/
theorem run_recon_zero_concurrency_stuck_witness :
    initState ["a.test"] = initState ["a.test"] ∧
      (initState ["a.test"]).results = [] ∧ ¬ allDone (initState ["a.test"]) :=
  run_recon_zero_concurrency_stuck envFail (initState ["a.test"])
    Relation.ReflTransGen.refl

/-- C3: `recon_target` has no failure mode.  Even when all three provider
calls fail (or time out), it still returns exactly one record for the
target, with `{"A": [], "MX": []}` name records, empty WHOIS data, empty
HTTP headers, and the completion timestamp. -/
theorem recon_target_never_fails (env : LookupEnv) (t : String)
    (ea em ew eh : String)
    (ha : env.resolveA t = Except.error ea)
    (hmx : env.resolveMX t = Except.error em)
    (hw : env.whoisItems t = Except.error ew)
    (hh : env.httpGet ("http://" ++ t) 5 = Except.error eh) :
    recon_target env t =
      { target := t
        dns_records := [("A", []), ("MX", [])]
        whois_data := []
        http_headers := []
        timestamp := env.now t } := by
  simp [recon_target, dns_lookup, whois_lookup, fetch_http_headers,
    ha, hmx, hw, hh]

/-- Witness for `recon_target_never_fails`: the all-failing oracle at a
concrete target. -/
theorem recon_target_never_fails_witness :
    recon_target envFail "a.test" =
      { target := "a.test"
        dns_records := [("A", []), ("MX", [])]
        whois_data := []
        http_headers := []
        timestamp := envFail.now "a.test" } :=
  recon_target_never_fails envFail "a.test" "fail" "fail" "fail" "fail"
    rfl rfl rfl rfl

/-- An oracle in which every external call succeeds with fixed data. -/
def envOk : LookupEnv :=
  { resolveA := fun _ => .ok ["93.184.216.34"]
    resolveMX := fun _ => .ok ["mail.example.com."]
    whoisItems := fun _ =>
      .ok [("domain_name", .pystr "EXAMPLE.COM"), ("status", .pynone)]
    httpGet := fun _ _ => .ok [("Server", "ECS")]
    now := fun _ => ⟨2026, 1, 2, 3, 4, 5, 6⟩ }

/-- C5: `dns_lookup` handles the `A` and `MX` categories independently.
The result for each category depends only on that category's resolver
outcome (so an error or change in one category never affects the other),
and a resolution error in a category yields the empty sequence for that
category rather than a failure of the whole call (which is total). -/
theorem dns_lookup_category_isolation (env1 env2 : LookupEnv) (t : String) :
    (env1.resolveA t = env2.resolveA t →
      (dns_lookup env1 t).lookup "A" = (dns_lookup env2 t).lookup "A") ∧
    (env1.resolveMX t = env2.resolveMX t →
      (dns_lookup env1 t).lookup "MX" = (dns_lookup env2 t).lookup "MX") ∧
    (∀ e, env1.resolveA t = Except.error e →
      (dns_lookup env1 t).lookup "A" = some []) ∧
    (∀ e, env1.resolveMX t = Except.error e →
      (dns_lookup env1 t).lookup "MX" = some []) := by
  refine ⟨fun hA => ?_, fun hMX => ?_, fun e he => ?_, fun e he => ?_⟩
  · simp [dns_lookup, List.lookup, hA]
  · simp [dns_lookup, List.lookup, hMX]
  · simp [dns_lookup, List.lookup, he]
  · simp [dns_lookup, List.lookup, he]

/-- Witness for `dns_lookup_category_isolation`: in an oracle whose MX
resolution fails but whose A resolution matches the all-ok oracle, the A
category is unaffected and the MX category is empty. -/
theorem dns_lookup_category_isolation_witness :
    (dns_lookup
      { envOk with resolveMX := fun _ => .error "timeout" } "a.test").lookup "A" =
        (dns_lookup envOk "a.test").lookup "A" ∧
    (dns_lookup
      { envOk with resolveMX := fun _ => .error "timeout" } "a.test").lookup "MX" =
        some [] := by
  have h := dns_lookup_category_isolation
    { envOk with resolveMX := fun _ => .error "timeout" } envOk "a.test"
  exact ⟨h.1 rfl, h.2.2.2 "timeout" rfl⟩

/-- C6: `whois_lookup` returns, on success of the underlying WHOIS call,
exactly the stringified truthy fields (a pair `(k, s)` is in the result
iff some field `(k, v)` with truthy `v` and `s = str(v)` was returned),
and on any underlying failure it returns the empty mapping; the caller
never sees an error in either case. -/
theorem whois_lookup_stringified_truthy (env : LookupEnv) (t : String) :
    (∀ e, env.whoisItems t = Except.error e → whois_lookup env t = []) ∧
    (∀ items, env.whoisItems t = Except.ok items →
      ∀ k s, ((k, s) ∈ whois_lookup env t ↔
        ∃ v, (k, v) ∈ items ∧ pyTruthy v = true ∧ s = pyStr v)) := by
  constructor
  · intro e he
    simp [whois_lookup, he]
  · intro items hitems k s
    simp only [whois_lookup, hitems]
    constructor
    · intro hmem
      obtain ⟨kv, hkv, heq⟩ := List.mem_map.mp hmem
      obtain ⟨hin, htr⟩ := List.mem_filter.mp hkv
      obtain ⟨hk, hs⟩ := Prod.mk.injEq .. ▸ heq
      refine ⟨kv.2, ?_, htr, hs.symm⟩
      rw [← hk]
      simpa using hin
    · intro ⟨v, hin, htr, hs⟩
      refine List.mem_map.mpr ⟨(k, v), List.mem_filter.mpr ⟨hin, ?_⟩, ?_⟩
      · simpa using htr
      · simp [hs]

/-- Witness for `whois_lookup_stringified_truthy`: in the all-ok oracle
the truthy field survives stringified, and in the all-failing oracle the
mapping is empty. -/
theorem whois_lookup_stringified_truthy_witness :
    ("domain_name", "EXAMPLE.COM") ∈ whois_lookup envOk "a.test" ∧
      whois_lookup envFail "a.test" = [] := by
  constructor
  · exact ((whois_lookup_stringified_truthy envOk "a.test").2
      [("domain_name", .pystr "EXAMPLE.COM"), ("status", .pynone)] rfl
      "domain_name" "EXAMPLE.COM").mpr
      ⟨.pystr "EXAMPLE.COM", List.Mem.head _, rfl, rfl⟩
  · exact (whois_lookup_stringified_truthy envFail "a.test").1 "fail" rfl

/-- C7: the header fetch for a target is issued against the URL
`http://<target>` with the fixed per-request timeout of 5 time units
(mirroring `session.get(url, timeout=5)` wrapped in try/except), and any
error outcome of that bounded request (timeout, connection failure,
transport error) yields the empty mapping instead of propagating. -/
theorem fetch_http_headers_bounded (env : LookupEnv) (t : String) :
    (recon_target env t).http_headers =
      fetch_http_headers env ("http://" ++ t) 5 ∧
    (∀ e, env.httpGet ("http://" ++ t) 5 = Except.error e →
      (recon_target env t).http_headers = []) ∧
    (∀ hs, env.httpGet ("http://" ++ t) 5 = Except.ok hs →
      (recon_target env t).http_headers = hs) := by
  refine ⟨rfl, fun e he => ?_, fun hs hok => ?_⟩
  · simp [recon_target, fetch_http_headers, he]
  · simp [recon_target, fetch_http_headers, hok]

/-- Witness for `fetch_http_headers_bounded`: the all-failing oracle
(covering timeouts) yields empty headers at a concrete target. -/
theorem fetch_http_headers_bounded_witness :
    (recon_target envFail "slow.test").http_headers = [] :=
  (fetch_http_headers_bounded envFail "slow.test").2.1 "fail" rfl

/-- C9: whatever the resolver outcomes, the `dns_records` mapping of every
produced record has exactly the keys `A` and `MX`, in that order. -/
theorem dns_records_exact_keys (env : LookupEnv) (t : String) :
    ((recon_target env t).dns_records).map Prod.fst = ["A", "MX"] := by
  simp [recon_target, dns_lookup]

/-- JSON values as produced by `json.dump` for this program's data: only
strings, arrays and objects occur in a serialized report. -/
inductive JVal where
  | jstr (s : String)
  | jarr (elems : List JVal)
  | jobj (fields : List (String × JVal))

/-- Serialize a string-to-string mapping as a JSON object. -/
def strMapToJson (m : List (String × String)) : JVal :=
  .jobj (m.map (fun kv => (kv.1, JVal.jstr kv.2)))

/-- Serialized form of one record, mirroring
`json.dump(asdict(r), ..., default=json_converter)` (line 116): every
field is JSON-native except the timestamp, for which `json.dump` falls
back to `json_converter` and stores the ISO-8601 string. -/
def recordToJson (r : ReconResult) : JVal :=
  .jobj [("target", .jstr r.target),
    ("dns_records",
      .jobj (r.dns_records.map (fun kv => (kv.1, JVal.jarr (kv.2.map JVal.jstr))))),
    ("whois_data", strMapToJson r.whois_data),
    ("http_headers", strMapToJson r.http_headers),
    ("timestamp", .jstr (json_converter (PyObj.datetime r.timestamp)))]

/-- The output artifact: a JSON array of serialized records (line 116). -/
def batchToJson (rs : List ReconResult) : JVal :=
  .jarr (rs.map recordToJson)

/-- Apply a fallible reader to every element, failing if any element
fails. -/
def optMapList (f : α → Option β) : List α → Option (List β)
  | [] => some []
  | x :: xs => do
    let y ← f x
    let ys ← optMapList f xs
    pure (y :: ys)

/-- Read a JSON string. -/
def jAsStr : JVal → Option String
  | .jstr s => some s
  | _ => none

/-- Read a JSON array of strings. -/
def jAsStrList : JVal → Option (List String)
  | .jarr l => optMapList jAsStr l
  | _ => none

/-- Read a JSON object with string values. -/
def jAsStrMap : JVal → Option (List (String × String))
  | .jobj fs => optMapList (fun kv => (jAsStr kv.2).map (fun s => (kv.1, s))) fs
  | _ => none

/-- Read a JSON object whose values are arrays of strings. -/
def jAsDnsMap : JVal → Option (List (String × List String))
  | .jobj fs => optMapList (fun kv => (jAsStrList kv.2).map (fun l => (kv.1, l))) fs
  | _ => none

/-- A record as read back from the report file: the same fields, with the
timestamp kept as its ISO-8601 string. -/
structure ParsedRecord where
  target : String
  dns_records : List (String × List String)
  whois_data : List (String × String)
  http_headers : List (String × String)
  timestamp : String
deriving DecidableEq, Repr

/-- Parse one serialized record. -/
def recordFromJson : JVal → Option ParsedRecord
  | .jobj [("target", jt), ("dns_records", jd), ("whois_data", jw),
      ("http_headers", jh), ("timestamp", jts)] => do
    let t ← jAsStr jt
    let d ← jAsDnsMap jd
    let w ← jAsStrMap jw
    let hh ← jAsStrMap jh
    let ts ← jAsStr jts
    pure ⟨t, d, w, hh, ts⟩
  | _ => none

/-- Parse a serialized batch. -/
def batchFromJson : JVal → Option (List ParsedRecord)
  | .jarr l => optMapList recordFromJson l
  | _ => none

theorem optMapList_map (f : β → Option γ) (g : α → β) (h : α → γ)
    (hfg : ∀ a, f (g a) = some (h a)) (l : List α) :
    optMapList f (l.map g) = some (l.map h) := by
  induction l with
  | nil => rfl
  | cons x xs ih => simp [optMapList, hfg, ih]

theorem jAsStrList_roundtrip (l : List String) :
    jAsStrList (.jarr (l.map JVal.jstr)) = some l := by
  rw [jAsStrList, optMapList_map jAsStr JVal.jstr id (fun a => rfl) l,
    List.map_id]

theorem jAsStrMap_roundtrip (m : List (String × String)) :
    jAsStrMap (strMapToJson m) = some m := by
  rw [strMapToJson, jAsStrMap,
    optMapList_map (fun kv => Option.map (fun s => (kv.1, s)) (jAsStr kv.2))
      (fun kv => (kv.1, JVal.jstr kv.2)) id ?_ m,
    List.map_id]
  intro kv
  rfl

theorem jAsDnsMap_roundtrip (m : List (String × List String)) :
    jAsDnsMap (.jobj (m.map (fun kv => (kv.1, JVal.jarr (kv.2.map JVal.jstr))))) =
      some m := by
  rw [jAsDnsMap,
    optMapList_map (fun kv => Option.map (fun l => (kv.1, l)) (jAsStrList kv.2))
      (fun kv => (kv.1, JVal.jarr (kv.2.map JVal.jstr))) id ?_ m,
    List.map_id]
  intro kv
  show Option.map (fun l => (kv.1, l)) (jAsStrList (.jarr (kv.2.map JVal.jstr))) =
    some kv
  rw [jAsStrList_roundtrip]
  rfl

theorem recordFromJson_recordToJson (r : ReconResult) :
    recordFromJson (recordToJson r) =
      some ⟨r.target, r.dns_records, r.whois_data, r.http_headers,
        r.timestamp.isoformat⟩ := by
  simp [recordToJson, recordFromJson, jAsStr, jAsDnsMap_roundtrip,
    jAsStrMap_roundtrip, json_converter]

/-- C8: serializing a batch to the output JSON format and parsing it back
yields per-record equality of `target`, `dns_records`, `whois_data`,
`http_headers` and `timestamp`, the timestamp being compared as its
ISO-8601 string (the form `json_converter` wrote). -/
theorem batch_serialization_roundtrip (rs : List ReconResult) :
    batchFromJson (batchToJson rs) =
      some (rs.map (fun r =>
        ⟨r.target, r.dns_records, r.whois_data, r.http_headers,
          r.timestamp.isoformat⟩)) := by
  simp only [batchToJson, batchFromJson]
  induction rs with
  | nil => rfl
  | cons r rest ih =>
    simp only [List.map_cons, optMapList, recordFromJson_recordToJson, ih]
    rfl

/-- The two target-selection options of `run_cli` (lines 93-94):
`args.target` and `args.list`, each `none` when not supplied. -/
structure CliArgs where
  target : Option String
  list : Option String
deriving DecidableEq, Repr

/-- Python truthiness of an optional string argument: absent (`None`) and
the empty string are both falsy. -/
def truthyOpt : Option String → Bool
  | none => false
  | some s => !(s == "")

/-- The ASCII whitespace characters removed by Python `str.strip()`. -/
def pyIsSpace (c : Char) : Bool :=
  c == ' ' || c == '\t' || c == '\n' || c == '\r' || c == '\x0b' || c == '\x0c'

/-- Python `line.strip()`: drop leading and trailing whitespace. -/
def pyStrip (s : String) : String :=
  String.mk (((s.data.dropWhile pyIsSpace).reverse.dropWhile pyIsSpace).reverse)

/-- Embedding of the target-collection logic of `run_cli` (lines 99-107).
`readLines` yields the raw lines of a file.  The first component is the
collected target list (`none` models the error path that prints the usage
message and returns); the second component records which files were
opened, in order. -/
def collectTargets (args : CliArgs) (readLines : String → List String) :
    Option (List String) × List String :=
  if truthyOpt args.target then
    (some [args.target.getD ""], [])
  else if truthyOpt args.list then
    let file := args.list.getD ""
    (some (((readLines file).filter (fun l => !(pyStrip l == ""))).map
      (fun l => pyStrip l)), [file])
  else
    (none, [])

/-- C10 counterexample: with both options supplied but the single target
equal to the empty string, `if args.target:` is falsy in Python, so
`run_cli` opens and reads the list file instead of using the supplied
single target — the claim fails as stated. -/
theorem collectTargets_empty_target_reads_list :
    collectTargets { target := some "", list := some "targets.txt" }
      (fun _ => ["a.test"]) = (some ["a.test"], ["targets.txt"]) := by
  rfl

/-- C10 (amended): when a single target is supplied as a non-empty string,
it takes precedence regardless of the list option: the run proceeds with
exactly that one target and no file is ever opened. -/
theorem collectTargets_single_target_precedence (args : CliArgs)
    (readLines : String → List String) (t : String)
    (ht : args.target = some t) (hne : t ≠ "") :
    collectTargets args readLines = (some [t], []) := by
  simp [collectTargets, truthyOpt, ht, hne]

/-- Witness for `collectTargets_single_target_precedence`: a non-empty
single target together with a list option. -/
theorem collectTargets_single_target_precedence_witness :
    collectTargets { target := some "a.test", list := some "targets.txt" }
      (fun _ => ["b.test", "c.test"]) = (some ["a.test"], []) :=
  collectTargets_single_target_precedence
    { target := some "a.test", list := some "targets.txt" }
    (fun _ => ["b.test", "c.test"]) "a.test" rfl (by decide)
